import Mathlib

/-!
Verification of the vector-data extraction scripts (ExtractData.py and
ExtractDataPS.py). The scripts recover (X, Y) points from PDF/PostScript
drawing-operator streams: a tokenizer, a path-assembling state machine, a
point-count classifier and a linear/logarithmic calibration mapper.

The embedding models Python floats as exact rationals, tokens as either a
number (a token that parses as a float) or an operator word (a token that
does not), fatal `sys.exit(1)` paths as `Except.error`, and the mutable
state of the assembly loop as an explicit record threaded through a step
function. All definitions are translated from the source files; source line
numbers are cited in the doc comments.
-/

/-- A page-coordinate point, ExtractData.py stores these as float pairs. -/
abbrev PagePoint : Type := ℚ × ℚ

/-- The global page bounding box `ps_bounds` of ExtractData.py lines 177-183.
In the source the four entries start as `None` and are all first set by the
same `update_bounds` call, so the absent state is modelled as `Option BBox`. -/
structure BBox where
  xmin : ℚ
  xmax : ℚ
  ymin : ℚ
  ymax : ℚ
deriving DecidableEq, Repr

/-- One whitespace-delimited token of the operator text: either a token that
parses as a Python float, carrying its numeric value, or any other token,
carrying its text. (`float` parsing succeeds exactly on numeric literals,
which are never equal to the operator words the scripts test for.) -/
inductive Token where
  | num (q : ℚ) : Token
  | op (s : String) : Token
deriving DecidableEq, Repr

/-- Token list for the absolute move class, ExtractData.py line 193. -/
def moveNames : List String := ["m", "M", "moveto"]

/-- Token list for the absolute line class, ExtractData.py line 205. -/
def lineNames : List String := ["l", "L", "lineto"]

/-- Token list for the relative move/line class, ExtractData.py line 217. -/
def relNames : List String := ["V", "R", "rmoveto", "rlineto"]

/-- Token list for the close/stroke class of ExtractData.py line 250. -/
def strokeNames : List String := ["S", "s", "stroke", "h", "closepath"]

/-- Token list for the close/stroke class of ExtractDataPS.py line 170,
which recognises only `stroke` and `S`. -/
def psStrokeNames : List String := ["stroke", "S"]

/-- The assembler state of `extract_vector_data` (ExtractData.py lines
173-186): the cursor `(current_x, current_y)`, the open segment
`current_segment`, the closed segments `all_segments`, and `ps_bounds`. -/
structure AsmState where
  cursor : PagePoint
  current_segment : List PagePoint
  all_segments : List (List PagePoint)
  bbox : Option BBox
deriving DecidableEq, Repr

/-- Initial assembler state: cursor (0, 0), nothing open, no bounds
(ExtractData.py lines 173-185). -/
def initState : AsmState := ⟨(0, 0), [], [], none⟩

/-- The nested `update_bounds` of ExtractData.py lines 179-183 (identical in
ExtractDataPS.py lines 118-122): widen each of the four bounds, or install
the first coordinate when the bounds are still `None`. -/
def update_bounds (b : Option BBox) (x y : ℚ) : Option BBox :=
  match b with
  | none => some ⟨x, x, y, y⟩
  | some bb => some ⟨min bb.xmin x, max bb.xmax x, min bb.ymin y, max bb.ymax y⟩

/-- The `if current_segment: all_segments.append(current_segment)` idiom
used on every path boundary (ExtractData.py lines 197-199, 250-253,
259-260). -/
def closeSeg (s : AsmState) : AsmState :=
  if s.current_segment.isEmpty then s
  else { s with all_segments := s.all_segments ++ [s.current_segment],
                current_segment := [] }

/-- Argument lookup: `float(clean_tokens[i-1-k])` of ExtractData.py, where
`prev` lists the tokens before position `i` in reverse order. Returns `none`
when the index is out of range (the `i >= N` guard) or the token does not
parse as a float (the `ValueError` caught at line 255). -/
def argNum (prev : List Token) (k : Nat) : Option ℚ :=
  match prev[k]? with
  | some (Token.num q) => some q
  | _ => none

/-- The two-argument lookup `float(clean_tokens[i-2]), float(clean_tokens[i-1])`
shared by the move, line and relative classes. In the source both floats are
parsed before any state is mutated, so a failure of either leaves the state
untouched; this is modelled by an all-or-nothing pair. -/
def arg2 (prev : List Token) : Option (ℚ × ℚ) :=
  match argNum prev 1, argNum prev 0 with
  | some x, some y => some (x, y)
  | _, _ => none

/-- The four-argument lookup of the rectangle operator, ExtractData.py lines
234-237, again parsed before any mutation. -/
def arg4 (prev : List Token) : Option (ℚ × ℚ × ℚ × ℚ) :=
  match argNum prev 3, argNum prev 2, argNum prev 1, argNum prev 0 with
  | some x, some y, some w, some h => some (x, y, w, h)
  | _, _, _, _ => none

/-- One iteration of the token loop of ExtractData.py lines 188-257, acting
on the state for the token at the current position, with `prev` the earlier
tokens in reverse order. -/
def edStep (prev : List Token) (t : Token) (s : AsmState) : AsmState :=
  match t with
  | Token.num _ => s
  | Token.op name =>
    if name ∈ moveNames then
      match arg2 prev with
      | some (x, y) =>
          let s1 := closeSeg s
          { s1 with cursor := (x, y), bbox := update_bounds s1.bbox x y }
      | none => s
    else if name ∈ lineNames then
      match arg2 prev with
      | some (x, y) =>
          let seg := if s.current_segment.isEmpty then [s.cursor]
                     else s.current_segment
          { s with current_segment := seg ++ [(x, y)], cursor := (x, y),
                   bbox := update_bounds s.bbox x y }
      | none => s
    else if name ∈ relNames then
      match arg2 prev with
      | some (dx, dy) =>
          let dest : PagePoint := (s.cursor.1 + dx, s.cursor.2 + dy)
          let seg := if s.current_segment.isEmpty then [s.cursor]
                     else s.current_segment
          let bb := if s.current_segment.isEmpty
                    then update_bounds s.bbox s.cursor.1 s.cursor.2
                    else s.bbox
          { s with current_segment := seg ++ [dest], cursor := dest,
                   bbox := update_bounds bb dest.1 dest.2 }
      | none => s
    else if name = "re" then
      match arg4 prev with
      | some (x, y, w, h) =>
          let s1 := closeSeg s
          { s1 with
            all_segments := s1.all_segments ++
              [[(x, y), (x + w, y), (x + w, y + h), (x, y + h), (x, y)]],
            current_segment := [],
            bbox := update_bounds (update_bounds s1.bbox x y) (x + w) (y + h) }
      | none => s
    else if name ∈ strokeNames then closeSeg s
    else s

/-- The whole token loop of ExtractData.py lines 187-257: fold `edStep`
over the token list, accumulating the reversed prefix as `prev`. -/
def edRun (prev : List Token) (ts : List Token) (s : AsmState) : AsmState :=
  match ts with
  | [] => s
  | t :: rest => edRun (t :: prev) rest (edStep prev t s)

/-- End-of-stream flush of ExtractData.py lines 259-260 and
ExtractDataPS.py lines 178-179: any still-open segment is appended. -/
def edFinish (s : AsmState) : AsmState := closeSeg s

/-- The classifier of ExtractData.py line 264 and ExtractDataPS.py line 183:
`[seg for seg in all_segments if len(seg) > 10]`. -/
def data_segments (segs : List (List PagePoint)) : List (List PagePoint) :=
  segs.filter (fun seg => 10 < seg.length)

/-- The diagnostic count printed at ExtractData.py line 267:
`len(all_segments) - len(data_segments)`. -/
def discardedCount (segs : List (List PagePoint)) : Nat :=
  segs.length - (data_segments segs).length

/-- Result of one `convert_value` call. The degenerate and linear branches
produce an exact rational; the logarithmic branch computes
`10 ** (norm * (log10 user_max - log10 user_min) + log10 user_min)`, an
irrational real in general, recorded here symbolically by its three
parameters (the source expression is determined by them). -/
inductive ConvResult where
  | val (q : ℚ) : ConvResult
  | logInterp (norm user_min user_max : ℚ) : ConvResult
deriving DecidableEq, Repr

/-- The calibration mapper `convert_value` of ExtractData.py lines 270-284
(identical in ExtractDataPS.py lines 189-205). The degenerate check comes
first; in log mode `math.log10` raises `ValueError` exactly when its
argument is non-positive, which the source catches and turns into a fatal
`sys.exit(1)`, modelled as `Except.error`. -/
def convert_value (val ps_min ps_max user_min user_max : ℚ) (is_log : Bool) :
    Except String ConvResult :=
  if ps_max = ps_min then Except.ok (ConvResult.val user_min)
  else
    let norm := (val - ps_min) / (ps_max - ps_min)
    if is_log then
      if user_min ≤ 0 ∨ user_max ≤ 0 then
        Except.error "Error: User limits must be positive for log scale."
      else Except.ok (ConvResult.logInterp norm user_min user_max)
    else Except.ok (ConvResult.val (norm * (user_max - user_min) + user_min))

/-- The calibration configuration record built at ExtractData.py lines
338-342. -/
structure UserLimits where
  xmin : ℚ
  xmax : ℚ
  ymin : ℚ
  ymax : ℚ
  logx : Bool
  logy : Bool
deriving DecidableEq, Repr

/-- Python truthiness of an optional float, as used by
`any([args.xmin, args.xmax, args.ymin, args.ymax])` at ExtractData.py line
334: `None` is falsy, a float is truthy when nonzero. -/
def pyTruthy (o : Option ℚ) : Bool :=
  match o with
  | none => false
  | some v => decide (v ≠ 0)

/-- The calibration-configuration check of ExtractData.py lines 333-342
(identical in ExtractDataPS.py lines 253-262): if `any` of the four bound
arguments is truthy, require `all` of them to be present (`is not None`) or
exit fatally; otherwise run uncalibrated. -/
def parse_limits (xmin xmax ymin ymax : Option ℚ) (logx logy : Bool) :
    Except String (Option UserLimits) :=
  if pyTruthy xmin || pyTruthy xmax || pyTruthy ymin || pyTruthy ymax then
    match xmin, xmax, ymin, ymax with
    | some a, some b, some c, some d =>
        Except.ok (some ⟨a, b, c, d, logx, logy⟩)
    | _, _, _, _ =>
        Except.error
          "Error: For calibration, you must provide ALL bounds: --xmin, --xmax, --ymin, --ymax"
  else Except.ok none

/-- The page-bounds report of ExtractData.py line 266: each bound is
formatted with the float format spec `.1f`. Formatting `None` with a float
format spec raises `TypeError` in Python; formatting a number succeeds. The
decimal rendering itself is not modelled, only success or failure and the
value formatted. -/
def reportPageBounds (b : Option BBox) : Except String BBox :=
  match b with
  | none =>
      Except.error "TypeError: unsupported format string passed to NoneType.__format__"
  | some bb => Except.ok bb

/-- The core of `extract_vector_data` (ExtractData.py lines 166-267) after
tokenization: run the assembler over the tokens, flush, classify, and then
print the detected page bounds, which crashes when no coordinate was ever
seen. Empty operator text tokenizes to the empty token list. -/
def extract_vector_data (tokens : List Token) :
    Except String (List (List PagePoint) × BBox) :=
  let s := edFinish (edRun [] tokens initState)
  let dataSegs := data_segments s.all_segments
  match reportPageBounds s.bbox with
  | Except.error e => Except.error e
  | Except.ok bb => Except.ok (dataSegs, bb)

/-- Token lookup inside one line of ExtractDataPS.py: `float(tokens[k])`,
returning `none` when the token is missing or does not parse. -/
def tkNum (ts : List Token) (k : Nat) : Option ℚ :=
  match ts[k]? with
  | some (Token.num q) => some q
  | _ => none

/-- One iteration of the line loop of ExtractDataPS.py lines 126-176. The
command is the last token of the line (`cmd = tokens[-1]`); arguments are
`tokens[-3]` and `tokens[-2]`. Unlike ExtractData.py, the source mutates
state before all floats are parsed: for the move class the open segment is
closed before `float(tokens[-3])` is evaluated, and for the line class the
segment is seeded (with a bounds update) before parsing; a `ValueError`
caught at line 175 therefore leaves those partial effects in place, which
this step function reproduces branch by branch. -/
def psLineStep (tokens : List Token) (s : AsmState) : AsmState :=
  match tokens.getLast? with
  | none => s
  | some (Token.num _) => s
  | some (Token.op name) =>
    if name ∈ moveNames then
      if 3 ≤ tokens.length then
        let s1 := closeSeg s
        match tkNum tokens (tokens.length - 3) with
        | none => s1
        | some x =>
          let s2 := { s1 with cursor := (x, s1.cursor.2) }
          match tkNum tokens (tokens.length - 2) with
          | none => s2
          | some y =>
            let s3 := { s2 with cursor := (x, y) }
            { s3 with bbox := update_bounds s3.bbox x y }
      else s
    else if name ∈ relNames then
      if 3 ≤ tokens.length then
        match tkNum tokens (tokens.length - 3), tkNum tokens (tokens.length - 2) with
        | some dx, some dy =>
          let seg := if s.current_segment.isEmpty then [s.cursor]
                     else s.current_segment
          let bb := if s.current_segment.isEmpty
                    then update_bounds s.bbox s.cursor.1 s.cursor.2
                    else s.bbox
          let dest : PagePoint := (s.cursor.1 + dx, s.cursor.2 + dy)
          { s with current_segment := seg ++ [dest], cursor := dest,
                   bbox := update_bounds bb dest.1 dest.2 }
        | _, _ => s
      else s
    else if name ∈ lineNames then
      if 3 ≤ tokens.length then
        let s1 := if s.current_segment.isEmpty
                  then { s with current_segment := [s.cursor],
                                bbox := update_bounds s.bbox s.cursor.1 s.cursor.2 }
                  else s
        match tkNum tokens (tokens.length - 3) with
        | none => s1
        | some x =>
          let s2 := { s1 with cursor := (x, s1.cursor.2) }
          match tkNum tokens (tokens.length - 2) with
          | none => s2
          | some y =>
            let s3 := { s2 with cursor := (x, y),
                                current_segment := s2.current_segment ++ [(x, y)] }
            { s3 with bbox := update_bounds s3.bbox x y }
      else s
    else if name ∈ psStrokeNames then closeSeg s
    else s

/-- The line loop of ExtractDataPS.py lines 126-176: fold `psLineStep` over
the lines of the file, each line given as its token list (empty lines do
nothing, via the `getLast?` guard). -/
def psRun (ls : List (List Token)) (s : AsmState) : AsmState :=
  match ls with
  | [] => s
  | l :: rest => psRun rest (psLineStep l s)

/-- Assembly phase of ExtractData.py on operator text given as lines of
tokens: ExtractData.py tokenizes by concatenating the per-line token lists
into one flat stream (ExtractData.py lines 167-170; with no comment
markers, splitting each line and extending is exactly flattening). -/
def edAssemble (lines : List (List Token)) : AsmState :=
  edFinish (edRun [] lines.flatten initState)

/-- Assembly phase of ExtractDataPS.py on the same operator text
(ExtractDataPS.py lines 109-179). -/
def psAssemble (lines : List (List Token)) : AsmState :=
  edFinish (psRun lines initState)

/-- Boundary-event automaton, modelled from the spec property on segment
counts (section 8): it tracks only whether a segment is open and counts the
segment-producing boundary events of the token stream independently of the
assembler. One event is counted for each close/stroke operator seen while a
segment is open, each absolute-move operator with valid arguments seen while
open, and each rectangle operator with valid arguments seen while open, plus
one further event per rectangle operator with valid arguments (the emitted
closed-loop segment). Line and relative operators with valid arguments open
a segment; everything else leaves the automaton unchanged. -/
def evStep (prev : List Token) (t : Token) (o : Bool) : Bool × Nat :=
  match t with
  | Token.num _ => (o, 0)
  | Token.op name =>
    if name ∈ moveNames then
      match arg2 prev with
      | some _ => (false, if o then 1 else 0)
      | none => (o, 0)
    else if name ∈ lineNames then
      match arg2 prev with
      | some _ => (true, 0)
      | none => (o, 0)
    else if name ∈ relNames then
      match arg2 prev with
      | some _ => (true, 0)
      | none => (o, 0)
    else if name = "re" then
      match arg4 prev with
      | some _ => (false, (if o then 1 else 0) + 1)
      | none => (o, 0)
    else if name ∈ strokeNames then (false, if o then 1 else 0)
    else (o, 0)

/-- Run of the boundary-event automaton over a token stream, threading the
reversed prefix exactly as `edRun` does and accumulating the event count. -/
def evRun (prev : List Token) (ts : List Token) (oc : Bool × Nat) : Bool × Nat :=
  match ts with
  | [] => oc
  | t :: rest =>
      let r := evStep prev t oc.1
      evRun (t :: prev) rest (r.1, oc.2 + r.2)

/-- A token of the classes named by the segment-count claim: an explicit
close/stroke operator or an absolute move operator. -/
def isBoundaryTok (t : Token) : Bool :=
  match t with
  | Token.num _ => false
  | Token.op name => decide (name ∈ strokeNames) || decide (name ∈ moveNames)

/-- Strict outsideness of a point with respect to a bounding box. -/
def outsideBBox (bb : BBox) (p : PagePoint) : Bool :=
  decide (p.1 < bb.xmin) || decide (bb.xmax < p.1) ||
  decide (p.2 < bb.ymin) || decide (bb.ymax < p.2)

/-- A well-formed single-operator line of the vocabulary shared by the two
scripts: two numeric tokens followed by a move, line or relative operator,
or a lone stroke operator of the plain-text script. -/
def wfLine (ts : List Token) : Bool :=
  match ts with
  | [Token.num _, Token.num _, Token.op n] =>
      decide (n ∈ moveNames) || decide (n ∈ lineNames) || decide (n ∈ relNames)
  | [Token.op n] => decide (n ∈ psStrokeNames)
  | _ => false

/-- A line carrying an absolute move operator with two numeric arguments. -/
def moveLine (ts : List Token) : Bool :=
  match ts with
  | [Token.num _, Token.num _, Token.op n] => decide (n ∈ moveNames)
  | _ => false

/-- Helper for the classifier count: the kept and the discarded segments
partition the input. -/
theorem dataSegments_length_split (segs : List (List PagePoint)) :
    segs.length = (data_segments segs).length +
      (segs.filter (fun seg => seg.length ≤ 10)).length := by
  unfold data_segments
  induction segs with
  | nil => rfl
  | cons a t ih =>
      simp only [List.filter_cons, List.length_cons]
      by_cases h : 10 < a.length
      · have h2 : ¬ a.length ≤ 10 := Nat.not_le.mpr h
        simp [h, h2]
        omega
      · have h2 : a.length ≤ 10 := Nat.not_lt.mp h
        simp [h, h2]
        omega

/-- C1: on a container file with no decodable content stream the operator
text is empty, so the token list is empty; the assembler then yields zero
segments, zero data segments and absent page bounds, and the run crashes
with a TypeError while formatting the absent bounds for the page-bounds
report, instead of completing normally as the spec requires (code bug at
ExtractData.py line 266). -/
theorem c1_empty_input_zero_segments_then_crash :
    (edFinish (edRun [] [] initState)).all_segments = [] ∧
    data_segments (edFinish (edRun [] [] initState)).all_segments = [] ∧
    (edFinish (edRun [] [] initState)).bbox = none ∧
    extract_vector_data [] =
      Except.error "TypeError: unsupported format string passed to NoneType.__format__" :=
  ⟨rfl, rfl, rfl, rfl⟩

/-- C2: supplying only xmin with the value 0 is silently treated as no
calibration because the configuration check tests Python truthiness of the
float values, under which 0.0 is falsy (code bug at ExtractData.py line
334); with the value 1 the same partial configuration is rejected fatally
as the spec requires. -/
theorem c2_zero_bound_partial_config_not_rejected :
    parse_limits (some 0) none none none false false = Except.ok none ∧
    parse_limits (some 1) none none none false false =
      Except.error
        "Error: For calibration, you must provide ALL bounds: --xmin, --xmax, --ymin, --ymax" :=
  ⟨rfl, rfl⟩

/-- C3 counterexample: with logarithmic mode enabled and user_min = -1 the
conversion does not fail when the page bounds on the axis are degenerate;
the degenerate check of convert_value comes first and returns user_min, a
default value, exactly what the claim rules out. -/
theorem c3_cex_degenerate_log_returns_user_min :
    convert_value 5 3 3 (-1) 1 true = Except.ok (ConvResult.val (-1)) ∧
    convert_value 5 3 3 (-1) 1 true ≠
      Except.error "Error: User limits must be positive for log scale." :=
  ⟨rfl, by intro hc; exact Except.noConfusion ((rfl :
    convert_value 5 3 3 (-1) 1 true = Except.ok (ConvResult.val (-1))).symm.trans hc)⟩

/-- C3 amended: whenever logarithmic mode is enabled, a user bound for the
axis is non-positive, and the page bounds on the axis are non-degenerate,
the conversion fails fatally with the descriptive error; only the
degenerate-axis shortcut bypasses the check and returns user_min. -/
theorem c3_log_nonpositive_bound_fatal (val pmin pmax umin umax : ℚ)
    (hne : pmax ≠ pmin) (hnp : umin ≤ 0 ∨ umax ≤ 0) :
    convert_value val pmin pmax umin umax true =
      Except.error "Error: User limits must be positive for log scale." := by
  unfold convert_value
  rw [if_neg hne]
  simp only [if_true]
  rw [if_pos hnp]

/-- C3 witness: the amended theorem applied at a concrete non-degenerate
axis with a negative lower bound. -/
theorem c3_log_nonpositive_bound_fatal_w :
    convert_value 0 0 1 (-2) 5 true =
      Except.error "Error: User limits must be positive for log scale." :=
  c3_log_nonpositive_bound_fatal 0 0 1 (-2) 5 (by norm_num) (Or.inl (by norm_num))

/-- C6: the classifier returns exactly the ordered sublist of segments with
point count strictly greater than 10, the reported number of discarded
segments equals the number of segments of point count at most 10 and hence
the total count minus the kept count, a 10-point segment is discarded and
an 11-point segment is kept. -/
theorem c6_classifier_exact_threshold (segs : List (List PagePoint)) :
    data_segments segs = segs.filter (fun seg => 10 < seg.length) ∧
    (data_segments segs).Sublist segs ∧
    segs.length = (data_segments segs).length +
      (segs.filter (fun seg => seg.length ≤ 10)).length ∧
    discardedCount segs = (segs.filter (fun seg => seg.length ≤ 10)).length ∧
    data_segments [List.replicate 10 ((0 : ℚ), (0 : ℚ))] = [] ∧
    data_segments [List.replicate 11 ((0 : ℚ), (0 : ℚ))] =
      [List.replicate 11 ((0 : ℚ), (0 : ℚ))] := by
  refine ⟨rfl, List.filter_sublist _, dataSegments_length_split segs, ?_,
    by decide, by decide⟩
  have h := dataSegments_length_split segs
  unfold discardedCount
  omega

/-- C7: with degenerate page bounds on an axis the calibration function
returns user_min for every value and both mode flags, and this is a normal
return, not an error. -/
theorem c7_degenerate_axis_returns_user_min (val m umin umax : ℚ) (islog : Bool) :
    convert_value val m m umin umax islog = Except.ok (ConvResult.val umin) := by
  unfold convert_value
  simp

/-- C8: in linear mode with non-degenerate page bounds the calibration maps
the page endpoints exactly to the user bounds, for every choice of user
bounds. -/
theorem c8_linear_endpoints_exact (pmin pmax umin umax : ℚ) (h : pmax ≠ pmin) :
    convert_value pmin pmin pmax umin umax false = Except.ok (ConvResult.val umin) ∧
    convert_value pmax pmin pmax umin umax false = Except.ok (ConvResult.val umax) := by
  have hd : pmax - pmin ≠ 0 := sub_ne_zero.mpr h
  constructor
  · unfold convert_value
    rw [if_neg h]
    simp
  · unfold convert_value
    rw [if_neg h]
    simp only [Bool.false_eq_true, if_false]
    congr 2
    rw [div_self hd]
    ring

/-- C8 witness: the endpoint theorem applied at concrete page bounds 0 and
1 and user bounds 5 and 7. -/
theorem c8_linear_endpoints_exact_w :
    convert_value 0 0 1 5 7 false = Except.ok (ConvResult.val 5) ∧
    convert_value 1 0 1 5 7 false = Except.ok (ConvResult.val 7) :=
  c8_linear_endpoints_exact 0 1 5 7 (by norm_num)

/-- C9 counterexample: in ExtractDataPS a move operator with non-numeric
argument tokens still closes the open segment before the parse failure is
raised, so the assembler state after the malformed operator differs from
the state before it (ExtractDataPS.py lines 136-144: the segment is closed
before float(tokens[-3]) is evaluated). -/
theorem c9_cex_ps_malformed_operator_mutates_state :
    (psRun [[Token.num 1, Token.num 1, Token.op "l"]] initState).all_segments = [] ∧
    (psLineStep [Token.op "a", Token.op "b", Token.op "m"]
        (psRun [[Token.num 1, Token.num 1, Token.op "l"]] initState)).all_segments =
      [[((0 : ℚ), (0 : ℚ)), (1, 1)]] ∧
    psLineStep [Token.op "a", Token.op "b", Token.op "m"]
        (psRun [[Token.num 1, Token.num 1, Token.op "l"]] initState) ≠
      psRun [[Token.num 1, Token.num 1, Token.op "l"]] initState :=
  ⟨rfl, rfl, by decide⟩

/-- C9 amended: in the container-aware variant (ExtractData) every move,
line, relative or rectangle operator whose argument lookup fails, because
fewer than N tokens precede it or some argument token does not parse as a
number, is skipped with the assembler state exactly unchanged, and the run
never aborts; in the plain-text variant (ExtractDataPS) a parse failure can
instead leave partial effects behind, as the counterexample shows, though
that run never aborts either. -/
theorem c9_ed_malformed_operator_state_unchanged (prev : List Token)
    (name : String) (s : AsmState)
    (h : ((name ∈ moveNames ∨ name ∈ lineNames ∨ name ∈ relNames) ∧ arg2 prev = none)
       ∨ (name = "re" ∧ arg4 prev = none)) :
    edStep prev (Token.op name) s = s := by
  rcases h with ⟨hcls, harg⟩ | ⟨hre, harg⟩
  · rcases hcls with hm | hl | hr
    · fin_cases hm <;> simp +decide [edStep, harg]
    · fin_cases hl <;> simp +decide [edStep, harg]
    · fin_cases hr <;> simp +decide [edStep, harg]
  · subst hre
    simp +decide [edStep, harg]

/-- C9 witness: the amended theorem applied to a line operator preceded by
a single non-numeric token. -/
theorem c9_ed_malformed_operator_state_unchanged_w :
    edStep [Token.op "x"] (Token.op "l") initState = initState :=
  c9_ed_malformed_operator_state_unchanged [Token.op "x"] "l" initState
    (Or.inl ⟨Or.inr (Or.inl (by decide)), rfl⟩)

/-- C10: in ExtractData an absolute line operator that seeds a new segment
appends the cursor without touching the bounding box, only the destination
updates it, while a relative operator seeding a segment updates the box
with the cursor seed too; consequently the stream consisting only of
"50 50 l" emits a segment containing the never-bounded seed (0, 0) while
the reported bounding box is the single point (50, 50), so a point of an
emitted segment lies strictly outside the reported box. -/
theorem c10_lineto_seed_not_in_bbox (prev : List Token) (x y : ℚ) (s : AsmState)
    (h : s.current_segment = []) :
    edStep (Token.num y :: Token.num x :: prev) (Token.op "l") s =
      { s with current_segment := [s.cursor, (x, y)], cursor := (x, y),
               bbox := update_bounds s.bbox x y } ∧
    edStep (Token.num y :: Token.num x :: prev) (Token.op "V") s =
      { s with current_segment := [s.cursor, (s.cursor.1 + x, s.cursor.2 + y)],
               cursor := (s.cursor.1 + x, s.cursor.2 + y),
               bbox := update_bounds
                 (update_bounds s.bbox s.cursor.1 s.cursor.2)
                 (s.cursor.1 + x) (s.cursor.2 + y) } ∧
    (edFinish (edRun [] [Token.num 50, Token.num 50, Token.op "l"] initState)).all_segments =
      [[((0 : ℚ), (0 : ℚ)), (50, 50)]] ∧
    (edFinish (edRun [] [Token.num 50, Token.num 50, Token.op "l"] initState)).bbox =
      some ⟨50, 50, 50, 50⟩ ∧
    outsideBBox ⟨50, 50, 50, 50⟩ ((0 : ℚ), (0 : ℚ)) = true := by
  refine ⟨?_, ?_, rfl, rfl, by decide⟩
  · simp +decide [edStep, arg2, argNum, h]
  · simp +decide [edStep, arg2, argNum, h]

/-- C10 witness: the line-seeding equation applied at the initial state
with destination (2, 3). -/
theorem c10_lineto_seed_not_in_bbox_w :
    edStep [Token.num 3, Token.num 2] (Token.op "l") initState =
      { cursor := (2, 3), current_segment := [(0, 0), (2, 3)],
        all_segments := [], bbox := some ⟨2, 2, 3, 3⟩ } :=
  ((c10_lineto_seed_not_in_bbox [] 2 3 initState rfl).1).trans (by decide)

/-- C5 counterexample: the stream "5 5 10 20 re" contains no close/stroke
operator and no move operator at all, and no segment remains open at
end-of-stream, yet the assembled segment list contains one segment (the
closed-loop rectangle emitted directly by the re operator). -/
theorem c5_cex_rectangle_segment_without_boundary_event :
    ([Token.num 5, Token.num 5, Token.num 10, Token.num 20, Token.op "re"].all
      (fun t => !(isBoundaryTok t))) = true ∧
    (edRun [] [Token.num 5, Token.num 5, Token.num 10, Token.num 20, Token.op "re"]
      initState).current_segment = [] ∧
    (edFinish (edRun [] [Token.num 5, Token.num 5, Token.num 10, Token.num 20, Token.op "re"]
      initState)).all_segments.length = 1 :=
  ⟨rfl, rfl, rfl⟩

/-- Helper for the segment count: one assembler step tracks the
boundary-event automaton, the open flag stays the negation of the
open-segment emptiness and the segment list grows by exactly the event
count of the step. -/
theorem isEmpty_append_singleton (l : List PagePoint) (p : PagePoint) :
    (l ++ [p]).isEmpty = false := by
  cases l <;> rfl

theorem edStep_evStep (prev : List Token) (t : Token) (s : AsmState) :
    (evStep prev t (!s.current_segment.isEmpty)).1 =
      !(edStep prev t s).current_segment.isEmpty ∧
    (edStep prev t s).all_segments.length =
      s.all_segments.length + (evStep prev t (!s.current_segment.isEmpty)).2 := by
  cases t with
  | num q => simp [evStep, edStep]
  | op name =>
      simp only [evStep, edStep]
      by_cases hm : name ∈ moveNames
      · simp only [if_pos hm]
        cases h2 : arg2 prev with
        | none => simp
        | some xy =>
            obtain ⟨x, y⟩ := xy
            by_cases he : s.current_segment.isEmpty <;>
              simp [closeSeg, he]
      · simp only [if_neg hm]
        by_cases hl : name ∈ lineNames
        · simp only [if_pos hl]
          cases h2 : arg2 prev with
          | none => simp
          | some xy =>
              obtain ⟨x, y⟩ := xy
              by_cases he : s.current_segment.isEmpty <;>
                simp [closeSeg, he, isEmpty_append_singleton]
        · simp only [if_neg hl]
          by_cases hr : name ∈ relNames
          · simp only [if_pos hr]
            cases h2 : arg2 prev with
            | none => simp
            | some xy =>
                obtain ⟨x, y⟩ := xy
                by_cases he : s.current_segment.isEmpty <;>
                  simp [closeSeg, he, isEmpty_append_singleton]
          · simp only [if_neg hr]
            by_cases hre : name = "re"
            · simp only [if_pos hre]
              cases h4 : arg4 prev with
              | none => simp
              | some xyz =>
                  obtain ⟨x, y, w, hh⟩ := xyz
                  by_cases he : s.current_segment.isEmpty <;>
                    simp [closeSeg, he]
            · simp only [if_neg hre]
              by_cases hs : name ∈ strokeNames
              · simp only [if_pos hs]
                by_cases he : s.current_segment.isEmpty <;>
                  simp [closeSeg, he]
              · simp only [if_neg hs]
                simp

/-- Helper for the segment count: the coupling of the previous lemma
extended over a whole token stream. -/
theorem edRun_evRun (ts prev : List Token) (s : AsmState) (c : Nat) :
    (evRun prev ts (!s.current_segment.isEmpty, c)).1 =
      !(edRun prev ts s).current_segment.isEmpty ∧
    (evRun prev ts (!s.current_segment.isEmpty, c)).2 + s.all_segments.length =
      c + (edRun prev ts s).all_segments.length := by
  induction ts generalizing prev s c with
  | nil => simp [evRun, edRun]
  | cons t rest ih =>
      obtain ⟨h1, h2⟩ := edStep_evStep prev t s
      simp only [evRun, edRun]
      rw [h1]
      obtain ⟨ih1, ih2⟩ := ih (t :: prev) (edStep prev t s)
        (c + (evStep prev t (!s.current_segment.isEmpty)).2)
      exact ⟨ih1, by omega⟩

/-- C5 amended: the number of assembled segments equals the event count of
the boundary-event automaton, close/stroke operators while a segment is
open, valid-argument move operators while open, valid-argument rectangle
operators while open, plus one per valid-argument rectangle operator for
the rectangle segment itself, plus one if a segment is still open at
end-of-stream. The claim as frozen omits the rectangle events, which the
counterexample exhibits. -/
theorem c5_segment_count_determined_by_events (ts : List Token) :
    (edFinish (edRun [] ts initState)).all_segments.length =
      (evRun [] ts (false, 0)).2 +
        (if (evRun [] ts (false, 0)).1 = true then 1 else 0) := by
  have h := edRun_evRun ts [] initState 0
  rw [show (!initState.current_segment.isEmpty) = false from rfl] at h
  obtain ⟨h1, h2⟩ := h
  rw [show initState.all_segments.length = 0 from rfl] at h2
  unfold edFinish closeSeg
  cases hc : (edRun [] ts initState).current_segment.isEmpty with
  | false =>
      rw [hc] at h1
      simp only [hc, Bool.false_eq_true, if_false, h1, Bool.not_false, if_true,
        List.length_append, List.length_cons, List.length_nil]
      omega
  | true =>
      rw [hc] at h1
      simp only [hc, if_true, h1, Bool.not_true, Bool.false_eq_true, if_false]
      omega

/-- A bounding box state covers a point when the box is present and the
point lies inside it. -/
def coversPt (b : Option BBox) (p : PagePoint) : Prop :=
  ∃ bb, b = some bb ∧ bb.xmin ≤ p.1 ∧ p.1 ≤ bb.xmax ∧ bb.ymin ≤ p.2 ∧ p.2 ≤ bb.ymax

/-- After an update the box covers the updated point. -/
theorem update_bounds_covers (b : Option BBox) (x y : ℚ) :
    coversPt (update_bounds b x y) (x, y) := by
  cases b with
  | none => exact ⟨⟨x, x, y, y⟩, rfl, le_refl x, le_refl x, le_refl y, le_refl y⟩
  | some bb =>
      exact ⟨⟨min bb.xmin x, max bb.xmax x, min bb.ymin y, max bb.ymax y⟩, rfl,
        min_le_right _ _, le_max_right _ _, min_le_right _ _, le_max_right _ _⟩

/-- Updating a box with a point it already covers leaves the box unchanged. -/
theorem update_bounds_of_covers {b : Option BBox} {p : PagePoint}
    (h : coversPt b p) : update_bounds b p.1 p.2 = b := by
  obtain ⟨bb, rfl, h1, h2, h3, h4⟩ := h
  simp only [update_bounds]
  rw [min_eq_left h1, max_eq_left h2, min_eq_left h3, max_eq_left h4]

/-- The flat token loop splits over list concatenation. -/
theorem edRun_append (ts us prev : List Token) (s : AsmState) :
    edRun prev (ts ++ us) s = edRun (ts.reverse ++ prev) us (edRun prev ts s) := by
  induction ts generalizing prev s with
  | nil => rfl
  | cons t rest ih =>
      simp only [List.cons_append, edRun, List.reverse_cons, List.append_assoc,
        List.singleton_append]
      exact ih (t :: prev) (edStep prev t s)


/-- On a well-formed single-operator line, given that the bounding box
already covers the cursor, the flat-token assembler of ExtractData and the
per-line assembler of ExtractDataPS perform the same state transition. The
covering hypothesis is needed exactly for an absolute line operator that
seeds a new segment: there ExtractDataPS additionally updates the bounding
box with the seeded cursor, a no-op when the cursor is already covered. -/
theorem line_agree (l : List Token) (s : AsmState) (hl : wfLine l = true)
    (hcov : coversPt s.bbox s.cursor) (prev : List Token) :
    edRun prev l s = psLineStep l s := by
  have hb : update_bounds s.bbox s.cursor.1 s.cursor.2 = s.bbox :=
    update_bounds_of_covers hcov
  rcases l with _ | ⟨t1, _ | ⟨t2, _ | ⟨t3, _ | ⟨t4, tl⟩⟩⟩⟩
  · simp [wfLine] at hl
  · cases t1 with
    | num q => simp [wfLine] at hl
    | op n =>
        simp only [wfLine, decide_eq_true_eq] at hl
        fin_cases hl <;> simp +decide [edRun, edStep, psLineStep]
  · cases t1 <;> cases t2 <;> simp [wfLine] at hl
  · cases t1 with
    | op n1 => simp [wfLine] at hl
    | num x =>
        cases t2 with
        | op n2 => simp [wfLine] at hl
        | num y =>
            cases t3 with
            | num q => simp [wfLine] at hl
            | op n =>
                simp only [wfLine, Bool.or_eq_true, decide_eq_true_eq] at hl
                rcases hl with (h | h) | h
                · fin_cases h <;>
                    simp +decide [edRun, edStep, psLineStep, arg2, argNum, tkNum]
                · fin_cases h <;>
                    (by_cases he : s.current_segment.isEmpty <;>
                      simp +decide [edRun, edStep, psLineStep, he, hb, arg2,
                        argNum, tkNum])
                · fin_cases h <;>
                    simp +decide [edRun, edStep, psLineStep, arg2, argNum, tkNum]
  · simp [wfLine] at hl

/-- A well-formed line keeps the cursor covered by the bounding box. -/
theorem psLineStep_covers (l : List Token) (s : AsmState) (hl : wfLine l = true)
    (hcov : coversPt s.bbox s.cursor) :
    coversPt (psLineStep l s).bbox (psLineStep l s).cursor := by
  rcases l with _ | ⟨t1, _ | ⟨t2, _ | ⟨t3, _ | ⟨t4, tl⟩⟩⟩⟩
  · simp [wfLine] at hl
  · cases t1 with
    | num q => simp [wfLine] at hl
    | op n =>
        simp only [wfLine, decide_eq_true_eq] at hl
        fin_cases hl <;>
          (by_cases he : s.current_segment.isEmpty <;>
            (simp +decide [psLineStep, closeSeg, he]; exact hcov))
  · cases t1 <;> cases t2 <;> simp [wfLine] at hl
  · cases t1 with
    | op n1 => simp [wfLine] at hl
    | num x =>
        cases t2 with
        | op n2 => simp [wfLine] at hl
        | num y =>
            cases t3 with
            | num q => simp [wfLine] at hl
            | op n =>
                simp only [wfLine, Bool.or_eq_true, decide_eq_true_eq] at hl
                rcases hl with (h | h) | h <;>
                  fin_cases h <;>
                    (by_cases he : s.current_segment.isEmpty <;>
                      (simp +decide [psLineStep, closeSeg, he, tkNum];
                        exact update_bounds_covers _ _ _))
  · simp [wfLine] at hl

/-- A move line performs the same transition in both assemblers with no
covering hypothesis, and establishes the cursor-covering invariant. -/
theorem moveLine_agree (l : List Token) (s : AsmState) (hm : moveLine l = true)
    (prev : List Token) :
    edRun prev l s = psLineStep l s ∧
    coversPt (psLineStep l s).bbox (psLineStep l s).cursor := by
  rcases l with _ | ⟨t1, _ | ⟨t2, _ | ⟨t3, _ | ⟨t4, tl⟩⟩⟩⟩
  · simp [moveLine] at hm
  · cases t1 <;> simp [moveLine] at hm
  · cases t1 <;> cases t2 <;> simp [moveLine] at hm
  · cases t1 with
    | op n1 => simp [moveLine] at hm
    | num x =>
        cases t2 with
        | op n2 => simp [moveLine] at hm
        | num y =>
            cases t3 with
            | num q => simp [moveLine] at hm
            | op n =>
                simp only [moveLine, decide_eq_true_eq] at hm
                fin_cases hm <;>
                  (refine ⟨by simp +decide [edRun, edStep, psLineStep, arg2,
                      argNum, tkNum], ?_⟩;
                    (by_cases he : s.current_segment.isEmpty <;>
                      (simp +decide [psLineStep, closeSeg, he, tkNum];
                        exact update_bounds_covers _ _ _)))
  · simp [moveLine] at hm

/-- Over a list of well-formed lines both assemblers agree, provided the
cursor is covered at the start, and the covering invariant is maintained. -/
theorem run_agree (L : List (List Token)) (prev : List Token) (s : AsmState)
    (hw : ∀ l ∈ L, wfLine l = true) (hcov : coversPt s.bbox s.cursor) :
    edRun prev L.flatten s = psRun L s ∧
    coversPt (psRun L s).bbox (psRun L s).cursor := by
  induction L generalizing prev s with
  | nil => exact ⟨rfl, hcov⟩
  | cons l rest ih =>
      have hl : wfLine l = true := hw l (List.mem_cons_self _ _)
      have hw2 : ∀ m ∈ rest, wfLine m = true :=
        fun m hm2 => hw m (List.mem_cons_of_mem _ hm2)
      have hline := line_agree l s hl hcov prev
      have hcov2 := psLineStep_covers l s hl hcov
      simp only [List.flatten_cons, psRun]
      rw [edRun_append, hline]
      exact ih (l.reverse ++ prev) (psLineStep l s) hw2 hcov2

/-- C4 counterexample: on the one-line operator text "10 10 m 20 20 l" the
container-aware assembler processes both operators and produces the segment
from (10, 10) to (20, 20), while the plain-text assembler looks only at the
last token of the line, misses the moveto, seeds the segment from the
initial cursor (0, 0), and produces a different segment and a different
bounding box. -/
theorem c4_cex_multi_operator_line_differs :
    (edAssemble [[Token.num 10, Token.num 10, Token.op "m",
        Token.num 20, Token.num 20, Token.op "l"]]).all_segments =
      [[((10 : ℚ), (10 : ℚ)), (20, 20)]] ∧
    (psAssemble [[Token.num 10, Token.num 10, Token.op "m",
        Token.num 20, Token.num 20, Token.op "l"]]).all_segments =
      [[((0 : ℚ), (0 : ℚ)), (20, 20)]] ∧
    (edAssemble [[Token.num 10, Token.num 10, Token.op "m",
        Token.num 20, Token.num 20, Token.op "l"]]).all_segments ≠
      (psAssemble [[Token.num 10, Token.num 10, Token.op "m",
        Token.num 20, Token.num 20, Token.op "l"]]).all_segments ∧
    (edAssemble [[Token.num 10, Token.num 10, Token.op "m",
        Token.num 20, Token.num 20, Token.op "l"]]).bbox ≠
      (psAssemble [[Token.num 10, Token.num 10, Token.op "m",
        Token.num 20, Token.num 20, Token.op "l"]]).bbox :=
  ⟨rfl, rfl, by decide, by decide⟩

/-- C4 amended: restricted to operator texts in which every line holds a
single operator of the vocabulary shared by the two scripts, two numeric
tokens followed by a move, line or relative operator, or a lone stroke or S
token, and whose first line is an absolute move, the two assemblers produce
the same ordered segment list and the same bounding box. Outside this
restriction they differ: the plain-text variant reads only the last token
of each line, does not strip comments, lacks the rectangle and the s, h and
closepath operators, and bounds the seed of a line operator, as the
counterexample shows. -/
theorem c4_restricted_assemblers_agree (L : List (List Token))
    (hw : ∀ l ∈ L, wfLine l = true) (hm : moveLine L.headI = true) :
    (edAssemble L).all_segments = (psAssemble L).all_segments ∧
    (edAssemble L).bbox = (psAssemble L).bbox := by
  cases L with
  | nil => exact absurd hm (by decide)
  | cons l0 rest =>
      have hm0 : moveLine l0 = true := hm
      have hw2 : ∀ m ∈ rest, wfLine m = true :=
        fun m hm2 => hw m (List.mem_cons_of_mem _ hm2)
      obtain ⟨h1, hcov1⟩ := moveLine_agree l0 initState hm0 []
      obtain ⟨h2, _⟩ := run_agree rest (l0.reverse ++ []) (psLineStep l0 initState)
        hw2 hcov1
      unfold edAssemble psAssemble
      simp only [List.flatten_cons, psRun]
      rw [edRun_append, h1, h2]
      exact ⟨rfl, rfl⟩

/-- C4 witness: the restricted equivalence applied to the three-line text
"0 0 m / 5 7 l / stroke". -/
theorem c4_restricted_assemblers_agree_w :
    (edAssemble [[Token.num 0, Token.num 0, Token.op "m"],
        [Token.num 5, Token.num 7, Token.op "l"], [Token.op "stroke"]]).all_segments =
      (psAssemble [[Token.num 0, Token.num 0, Token.op "m"],
        [Token.num 5, Token.num 7, Token.op "l"], [Token.op "stroke"]]).all_segments ∧
    (edAssemble [[Token.num 0, Token.num 0, Token.op "m"],
        [Token.num 5, Token.num 7, Token.op "l"], [Token.op "stroke"]]).bbox =
      (psAssemble [[Token.num 0, Token.num 0, Token.op "m"],
        [Token.num 5, Token.num 7, Token.op "l"], [Token.op "stroke"]]).bbox :=
  c4_restricted_assemblers_agree
    [[Token.num 0, Token.num 0, Token.op "m"],
      [Token.num 5, Token.num 7, Token.op "l"], [Token.op "stroke"]]
    (by decide) (by decide)
